import Mathlib

/-!
Verification of the VLAN reconciliation core of the cisco.ios `ios_vlans`
resource module, together with the sibling `ios_evpn_evi` argument
specification.

The repository ships the module entry point (`plugins/modules/ios_vlans.py`)
and the sibling argspec
(`plugins/module_utils/network/ios/argspec/evpn_evi/evpn_evi.py`).
The reconciliation engine and command renderer themselves
(`plugins/module_utils/network/ios/config/vlans/vlans.py`) are not part of
the shipped sources, so they are modelled from the specification document
(sections 3, 4.3 and 4.4), with the concrete command vocabulary and the
per-entity attribute order taken from the module's documented EXAMPLES
output in `ios_vlans.py`.
-/

namespace IosVlans

/-! ## Data model (spec section 3, argspec in `ios_vlans.py` DOCUMENTATION) -/

/-- Administrative state of a VLAN: `state` option, choices active/suspend. -/
inductive AdminState where
  | active
  | suspend
deriving DecidableEq

/-- Shutdown option of a VLAN: string enum enabled/disabled in the argspec. -/
inductive ShutdownState where
  | enabled
  | disabled
deriving DecidableEq

/-- Private VLAN type: choices primary/isolated/community. -/
inductive PvlanType where
  | primary
  | isolated
  | community
deriving DecidableEq

/-- `private_vlan` suboptions: a type and, for primary VLANs, associated ids. -/
structure PrivateVlan where
  type : Option PvlanType := none
  associated : Option (List Nat) := none
deriving DecidableEq

/-- `member` suboptions: VXLAN vni (required) and optional EVPN evi. -/
structure Member where
  vni : Nat
  evi : Option Nat := none
deriving DecidableEq

/-- Modelled from the spec: a VlanEntity / VlanConfigEntity, keyed by
`vlan_id`; all attributes are optional so that "unspecified" stays
distinguishable from an explicitly set value (spec section 3 and 9). -/
structure Vlan where
  vlan_id : Nat
  name : Option String := none
  mtu : Option Nat := none
  state : Option AdminState := none
  remote_span : Option Bool := none
  shutdown : Option ShutdownState := none
  private_vlan : Option PrivateVlan := none
  member : Option Member := none
deriving DecidableEq

/-- The protected default VLAN ids 1 and 1002-1005 (spec section 3). -/
def protectedVlans : List Nat := [1, 1002, 1003, 1004, 1005]

/-- The keys of an entity collection, in input order. -/
def keysOf (l : List Vlan) : List Nat := l.map (fun v => v.vlan_id)

/-! ## ChangeSet (spec section 3) -/

/-- Action of a per-entity delta. -/
inductive Action where
  | create
  | update
  | delete
deriving DecidableEq

/-- Per-attribute deltas of one entity.  Each field is `none` when the
attribute is unchanged, and `some (old, new)` otherwise; `old = none` means
the attribute did not previously exist, `new = none` means it is removed. -/
structure Deltas where
  name : Option (Option String × Option String) := none
  state : Option (Option AdminState × Option AdminState) := none
  mtu : Option (Option Nat × Option Nat) := none
  remote_span : Option (Option Bool × Option Bool) := none
  shutdown : Option (Option ShutdownState × Option ShutdownState) := none
  private_vlan : Option (Option PrivateVlan × Option PrivateVlan) := none
  member : Option (Option Member × Option Member) := none
deriving DecidableEq

/-- One entry of a ChangeSet: entity key, action, attribute deltas. -/
structure Change where
  key : Nat
  action : Action
  deltas : Deltas := {}
deriving DecidableEq

/-! ## Attribute-level diff (spec section 4.3) -/

/-- Modelled from the spec: merged-mode attribute diff — only attributes
explicitly present in `want` and differing from `have` produce a delta. -/
def mergeAttr {α : Type} [DecidableEq α] (h w : Option α) :
    Option (Option α × Option α) :=
  match w with
  | none => none
  | some v => if h = some v then none else some (h, some v)

/-- Modelled from the spec: replaced-mode attribute diff — the full
symmetric difference; attributes present in `have` but absent from `want`
are scheduled for removal. -/
def replaceAttr {α : Type} [DecidableEq α] (h w : Option α) :
    Option (Option α × Option α) :=
  if h = w then none else some (h, w)

/-- Merged-mode per-entity diff (spec section 4.3, merged). -/
def mergedDiff (h w : Vlan) : Deltas :=
  { name := mergeAttr h.name w.name
    state := mergeAttr h.state w.state
    mtu := mergeAttr h.mtu w.mtu
    remote_span := mergeAttr h.remote_span w.remote_span
    shutdown := mergeAttr h.shutdown w.shutdown
    private_vlan := mergeAttr h.private_vlan w.private_vlan
    member := mergeAttr h.member w.member }

/-- Replaced-mode per-entity diff (spec section 4.3, replaced). -/
def replacedDiff (h w : Vlan) : Deltas :=
  { name := replaceAttr h.name w.name
    state := replaceAttr h.state w.state
    mtu := replaceAttr h.mtu w.mtu
    remote_span := replaceAttr h.remote_span w.remote_span
    shutdown := replaceAttr h.shutdown w.shutdown
    private_vlan := replaceAttr h.private_vlan w.private_vlan
    member := replaceAttr h.member w.member }

/-- An attribute-free entity carrying only the key. -/
def baseVlan (k : Nat) : Vlan := { vlan_id := k }

/-- Deltas of a `create`: every specified attribute of `w`, diffed against
an entity with no attributes. -/
def fullDeltas (w : Vlan) : Deltas := replacedDiff (baseVlan w.vlan_id) w

/-! ## Reconciliation engine (spec section 4.3) -/

/-- Look up the `have` entity matching a key (absence is meaningful). -/
def findHave (haveCfg : List Vlan) (k : Nat) : Option Vlan :=
  haveCfg.find? (fun h => h.vlan_id == k)

/-- Modelled from the spec: handling of one `want` entity under a given
attribute diff.  Present in `have` means `update` with the differing
attributes (dropped entirely when nothing differs); absent means `create`
with all specified attributes, except for the protected defaults (spec
section 3), which are never created, only attribute-updated. -/
def diffOne (diff : Vlan → Vlan → Deltas) (haveCfg : List Vlan)
    (w : Vlan) : Option Change :=
  match findHave haveCfg w.vlan_id with
  | some h =>
      if diff h w = ({} : Deltas) then none
      else some { key := w.vlan_id, action := .update, deltas := diff h w }
  | none =>
      if protectedVlans.contains w.vlan_id then
        if fullDeltas w = ({} : Deltas) then none
        else some { key := w.vlan_id, action := .update, deltas := fullDeltas w }
      else some { key := w.vlan_id, action := .create, deltas := fullDeltas w }

/-- Merged-mode handling of one `want` entity (spec section 4.3, merged). -/
def mergeOne : List Vlan → Vlan → Option Change := diffOne mergedDiff

/-- Replaced-mode handling of one `want` entity (spec 4.3, replaced). -/
def replaceOne : List Vlan → Vlan → Option Change := diffOne replacedDiff

/-- Modelled from the spec: the extra deletes of overridden mode — every
non-protected entity present in `have` but absent from `want`. -/
def overriddenDeletes (haveCfg : List Vlan) (wantKeys : List Nat) :
    List Change :=
  haveCfg.filterMap (fun h =>
    if wantKeys.contains h.vlan_id || protectedVlans.contains h.vlan_id then
      none
    else some { key := h.vlan_id, action := .delete })

/-- Modelled from the spec: deleted-mode changes.  Entities named in `want`
(or, when `want` is empty, every entity of `have`) are scheduled `delete`,
except the protected defaults; only the keys of `want` matter. -/
def deletedChanges (haveCfg : List Vlan) (wantKeys : List Nat) :
    List Change :=
  haveCfg.filterMap (fun h =>
    if protectedVlans.contains h.vlan_id then none
    else if wantKeys.isEmpty || wantKeys.contains h.vlan_id then
      some { key := h.vlan_id, action := .delete }
    else none)

/-- Insert a change into a key-ascending list (spec section 4.3 tie-break). -/
def insertByKey (c : Change) : List Change → List Change
  | [] => [c]
  | x :: xs => if c.key ≤ x.key then c :: x :: xs else x :: insertByKey c xs

/-- Sort a ChangeSet ascending by entity key (spec section 4.3 tie-break). -/
def sortByKey : List Change → List Change
  | [] => []
  | c :: cs => insertByKey c (sortByKey cs)

/-- The reconciliation modes that produce a ChangeSet.  `gathered` and
`parsed` bypass the engine entirely (spec section 4.3) and are therefore
not part of this type. -/
inductive Mode where
  | merged
  | replaced
  | overridden
  | deleted
  | rendered
deriving DecidableEq

/-- Modelled from the spec: `reconcile(have, want, mode) → ChangeSet`
(spec section 4.3), the pure reconciliation engine of
`plugins/module_utils/network/ios/config/vlans/vlans.py`, which is not
among the shipped sources.  Output is ordered ascending by `vlan_id`. -/
def reconcile (haveCfg want : List Vlan) : Mode → List Change
  | .merged => sortByKey (want.filterMap (mergeOne haveCfg))
  | .replaced => sortByKey (want.filterMap (replaceOne haveCfg))
  | .overridden =>
      sortByKey
        (want.filterMap (replaceOne haveCfg) ++
          overriddenDeletes haveCfg (keysOf want))
  | .deleted => sortByKey (deletedChanges haveCfg (keysOf want))
  | .rendered => sortByKey (want.filterMap (replaceOne []))

/-! ## Command renderer (spec section 4.4)

Modelled from the spec, with the command vocabulary and the per-entity
attribute order taken from the documented module output (EXAMPLES of
`ios_vlans.py`, notably the `rendered` examples and the deleted-without-
config example): `name`, `state`, `mtu`, `remote-span`, `shutdown`,
`private-vlan`, `member`.  The boolean `cfg` selects the
`vlan configuration` namespace. -/

/-- Context command: `vlan <id>` or `vlan configuration <id>`. -/
def contextCommand (cfg : Bool) (k : Nat) : String :=
  (if cfg then "vlan configuration " else "vlan ") ++ toString k

/-- Negated top-level command: `no vlan <id>` / `no vlan configuration <id>`. -/
def deleteCommand (cfg : Bool) (k : Nat) : String :=
  "no " ++ contextCommand cfg k

/-- Sub-commands for a `name` delta. -/
def nameCmds : Option (Option String × Option String) → List String
  | none => []
  | some (_, some v) => ["name " ++ v]
  | some (_, none) => ["no name"]

/-- Sub-commands for an admin-state delta. -/
def stateCmds : Option (Option AdminState × Option AdminState) → List String
  | none => []
  | some (_, some .active) => ["state active"]
  | some (_, some .suspend) => ["state suspend"]
  | some (_, none) => ["no state"]

/-- Sub-commands for an `mtu` delta. -/
def mtuCmds : Option (Option Nat × Option Nat) → List String
  | none => []
  | some (_, some n) => ["mtu " ++ toString n]
  | some (_, none) => ["no mtu"]

/-- Sub-commands for a `remote_span` delta; false-setting and removal are
the negated keyword form (spec section 4.4 polarity mapping). -/
def remoteSpanCmds : Option (Option Bool × Option Bool) → List String
  | none => []
  | some (_, some true) => ["remote-span"]
  | some (_, some false) => ["no remote-span"]
  | some (_, none) => ["no remote-span"]

/-- Sub-commands for a `shutdown` delta: `enabled` is the bare keyword,
`disabled` and removal the negated form (spec section 4.4). -/
def shutdownCmds :
    Option (Option ShutdownState × Option ShutdownState) → List String
  | none => []
  | some (_, some .enabled) => ["shutdown"]
  | some (_, some .disabled) => ["no shutdown"]
  | some (_, none) => ["no shutdown"]

/-- CLI keyword of a private VLAN type. -/
def pvlanTypeStr : PvlanType → String
  | .primary => "primary"
  | .isolated => "isolated"
  | .community => "community"

/-- Private-VLAN type sub-command: set when the type changes, negated form
on removal. -/
def pvlanTypeCmds (oldT newT : Option PvlanType) : List String :=
  if newT = oldT then []
  else
    match newT, oldT with
    | some t, _ => ["private-vlan " ++ pvlanTypeStr t]
    | none, some t => ["no private-vlan " ++ pvlanTypeStr t]
    | none, none => []

/-- Private-VLAN association sub-commands: one command per added id, one
negated command per removed id (spec section 4.4: per-id add/remove,
never a bulk replace). -/
def pvlanAssocCmds (oldA newA : List Nat) : List String :=
  (newA.filter (fun i => !(oldA.contains i))).map
    (fun i => "private-vlan association " ++ toString i) ++
  (oldA.filter (fun i => !(newA.contains i))).map
    (fun i => "no private-vlan association " ++ toString i)

/-- Sub-commands for a `private_vlan` delta: a type command when the type
changes, then the per-id association adds and removes. -/
def pvlanCmds :
    Option (Option PrivateVlan × Option PrivateVlan) → List String
  | none => []
  | some (o, n) =>
    pvlanTypeCmds (o.bind (fun p => p.type)) (n.bind (fun p => p.type)) ++
      pvlanAssocCmds ((o.bind (fun p => p.associated)).getD [])
        ((n.bind (fun p => p.associated)).getD [])

/-- The `member` binding command, as in the documented EXAMPLES output:
`member evpn-instance <evi> vni <vni>` or `member vni <vni>`. -/
def memberCommand (m : Member) : String :=
  match m.evi with
  | some e => "member evpn-instance " ++ toString e ++ " vni " ++ toString m.vni
  | none => "member vni " ++ toString m.vni

/-- Sub-commands for a `member` delta. -/
def memberCmds : Option (Option Member × Option Member) → List String
  | none => []
  | some (_, some m) => [memberCommand m]
  | some (some m, none) => ["no " ++ memberCommand m]
  | some (none, none) => []

/-- All sub-commands of one entity change, in the canonical attribute
order of the documented module output: name, admin-state, mtu,
remote-span, shutdown, private-vlan, member. -/
def subCmds (d : Deltas) : List String :=
  nameCmds d.name ++ stateCmds d.state ++ mtuCmds d.mtu ++
    remoteSpanCmds d.remote_span ++ shutdownCmds d.shutdown ++
    pvlanCmds d.private_vlan ++ memberCmds d.member

/-- Commands of one entity change: a pure `delete` emits only the single
negated top-level command and no sub-commands; otherwise a context command
followed by the sub-commands, when any sub-attribute change exists
(spec section 4.4). -/
def renderChange (cfg : Bool) (c : Change) : List String :=
  match c.action with
  | .delete => [deleteCommand cfg c.key]
  | _ =>
    let subs := subCmds c.deltas
    if subs.isEmpty then [] else contextCommand cfg c.key :: subs

/-- Modelled from the spec: `render(changeset) → ordered command list`
(spec section 4.4), the command renderer of the unshipped
`config/vlans/vlans.py`. -/
def render (cfg : Bool) (cs : List Change) : List String :=
  cs.flatMap (renderChange cfg)

/-! ## Module entry point of `ios_vlans.py` -/

/-- `state` choices of the `ios_vlans` module
(`ios_vlans.py`, DOCUMENTATION, `state.choices`). -/
def vlansStateChoices : List String :=
  ["merged", "replaced", "overridden", "deleted", "rendered", "gathered",
    "parsed"]

/-- The `required_if` table of `main` in `ios_vlans.py`: option required
for each state.  `deleted` and `gathered` appear in no entry. -/
def requiredIf : List (String × String) :=
  [("merged", "config"), ("replaced", "config"), ("overridden", "config"),
    ("rendered", "config"), ("parsed", "running_config")]

/-- `_is_l2_device` in `ios_vlans.py`: the device counts as L2 unless the
connection reports `network_os_type = "L3"`. -/
def isL2Device (networkOsType : Option String) : Bool :=
  !(networkOsType == some "L3")

/-- The failure message of `main` in `ios_vlans.py`. -/
def invalidResourceMsg : String :=
  "Resource VLAN is not valid for the target device."

/-- Outcome of the guard in `main`. -/
inductive ModuleOutcome where
  | executed
  | failed (msg : String)
deriving DecidableEq

/-- The guard of `main` in `ios_vlans.py`: the pipeline runs when the
device is L2 or the state is `rendered` or `parsed`; otherwise the module
fails with `invalidResourceMsg`. -/
def mainDispatch (isL2 : Bool) (state : String) : ModuleOutcome :=
  if isL2 || (["rendered", "parsed"].contains state) then .executed
  else .failed invalidResourceMsg

end IosVlans

namespace Evpn_eviArgs

/-! ## Sibling `ios_evpn_evi` argument specification
(`plugins/module_utils/network/ios/argspec/evpn_evi/evpn_evi.py`). -/

/-- `config.options.encapsulation.choices` in the argspec. -/
def encapsulationChoices : List String := ["vxlan"]

/-- `config.options.encapsulation.default` in the argspec. -/
def encapsulationDefault : Option String := some "vxlan"

/-- `state.choices` in the argspec. -/
def stateChoices : List String := ["merged", "replaced", "overridden", "deleted"]

/-- `state.default` in the argspec. -/
def stateDefault : String := "merged"

/-- One `config` element of the `ios_evpn_evi` argspec (the fields the
claims are about; booleans of the nested advertise/local-learning toggles
kept as optional flags). -/
structure EvpnEvi where
  evi : Nat
  encapsulation : Option String := none
  replication_type : Option String := none
  route_distinguisher : Option String := none
deriving DecidableEq

/-- Modelled from the spec: normalization applies the argspec defaults to
unspecified fields (spec section 3, lifecycle: defaults such as
`encapsulation=vxlan` are applied during normalization); the
default-application engine itself lives outside this repository. -/
def normalizeEvpnEvi (e : EvpnEvi) : EvpnEvi :=
  { e with
    encapsulation :=
      match e.encapsulation with
      | none => encapsulationDefault
      | some v => some v }

end Evpn_eviArgs

namespace IosVlans

/-! ## Basic lemmas about the engine -/

/-- Membership in `insertByKey` is membership in the inputs. -/
theorem mem_insertByKey {c x : Change} {l : List Change} :
    x ∈ insertByKey c l ↔ x = c ∨ x ∈ l := by
  induction l with
  | nil => simp [insertByKey]
  | cons a l ih =>
    simp only [insertByKey]
    split
    · simp [List.mem_cons]
    · simp [List.mem_cons, ih]
      tauto

/-- Sorting a ChangeSet by key preserves its members. -/
theorem mem_sortByKey {x : Change} {l : List Change} :
    x ∈ sortByKey l ↔ x ∈ l := by
  induction l with
  | nil => simp [sortByKey]
  | cons a l ih => simp [sortByKey, mem_insertByKey, ih]

/-- The replaced-mode diff of an entity against itself is empty. -/
theorem replacedDiff_self (v : Vlan) : replacedDiff v v = ({} : Deltas) := by
  simp [replacedDiff, replaceAttr]

/-- With unique keys, looking up the key of a member finds that member. -/
theorem findHave_self {l : List Vlan} {e : Vlan} (hnd : (keysOf l).Nodup)
    (he : e ∈ l) : findHave l e.vlan_id = some e := by
  induction l with
  | nil => cases he
  | cons a l ih =>
    have hnd' : a.vlan_id ∉ keysOf l ∧ (keysOf l).Nodup := by
      simpa [keysOf, List.nodup_cons] using hnd
    rcases List.mem_cons.mp he with rfl | hmem
    · simp [findHave, List.find?_cons_of_pos]
    · have hne : ¬(a.vlan_id == e.vlan_id) = true := by
        intro hb
        exact hnd'.1 (by
          rw [eq_of_beq hb]
          exact List.mem_map.mpr ⟨e, hmem, rfl⟩)
      unfold findHave
      rw [@List.find?_cons_of_neg _ (fun h : Vlan => h.vlan_id == e.vlan_id)
        a l hne]
      exact ih hnd'.2 hmem

/-- A key absent from `have` makes the lookup fail. -/
theorem findHave_eq_none {l : List Vlan} {k : Nat} (h : k ∉ keysOf l) :
    findHave l k = none := by
  rw [findHave, List.find?_eq_none]
  intro a ha hb
  exact h (by
    rw [← eq_of_beq hb]
    exact List.mem_map.mpr ⟨a, ha, rfl⟩)

/-- What `diffOne` can produce: the change carries the entity's key, and
it is an `update`, or a `create` of a non-protected key. -/
theorem diffOne_spec {diff : Vlan → Vlan → Deltas} {hc : List Vlan}
    {w : Vlan} {c : Change} (h : diffOne diff hc w = some c) :
    c.key = w.vlan_id ∧
      (c.action = .update ∨
        (c.action = .create ∧ protectedVlans.contains w.vlan_id = false)) := by
  unfold diffOne at h
  split at h
  · split at h
    · exact absurd h (by simp)
    · rw [Option.some.injEq] at h
      subst h
      exact ⟨rfl, Or.inl rfl⟩
  · by_cases hp : protectedVlans.contains w.vlan_id
    · rw [if_pos hp] at h
      split at h
      · exact absurd h (by simp)
      · rw [Option.some.injEq] at h
        subst h
        exact ⟨rfl, Or.inl rfl⟩
    · rw [if_neg hp, Option.some.injEq] at h
      subst h
      refine ⟨rfl, Or.inr ⟨rfl, ?_⟩⟩
      simpa using hp

/-- What the overridden-mode delete pass can produce: delete actions on
non-protected keys of `have` that are absent from `want`. -/
theorem overriddenDeletes_spec {hc : List Vlan} {ks : List Nat} {c : Change}
    (h : c ∈ overriddenDeletes hc ks) :
    c.action = .delete ∧ ks.contains c.key = false ∧
      protectedVlans.contains c.key = false ∧ c.key ∈ keysOf hc := by
  rcases List.mem_filterMap.mp h with ⟨a, ha, hfa⟩
  by_cases hb :
      (ks.contains a.vlan_id || protectedVlans.contains a.vlan_id) = true
  · rw [if_pos hb] at hfa
    exact absurd hfa (by simp)
  · rw [if_neg hb, Option.some.injEq] at hfa
    subst hfa
    simp only [Bool.or_eq_true, not_or] at hb
    refine ⟨rfl, ?_, ?_, List.mem_map.mpr ⟨a, ha, rfl⟩⟩
    · simpa using hb.1
    · simpa using hb.2

/-- A non-protected `have` entity absent from `want` gets an overridden-mode
delete entry. -/
theorem mem_overriddenDeletes_of {hc : List Vlan} {ks : List Nat} {a : Vlan}
    (ha : a ∈ hc) (h1 : ks.contains a.vlan_id = false)
    (h2 : protectedVlans.contains a.vlan_id = false) :
    ({ key := a.vlan_id, action := .delete } : Change) ∈
      overriddenDeletes hc ks :=
  List.mem_filterMap.mpr ⟨a, ha, by
    simp [overriddenDeletes, h1, h2]
    exact ⟨by simpa using h1, by simpa using h2⟩⟩

/-- What deleted mode can produce: delete actions on non-protected keys of
`have`. -/
theorem deletedChanges_spec {hc : List Vlan} {ks : List Nat} {c : Change}
    (h : c ∈ deletedChanges hc ks) :
    c.action = .delete ∧ protectedVlans.contains c.key = false ∧
      c.key ∈ keysOf hc := by
  rcases List.mem_filterMap.mp h with ⟨a, ha, hfa⟩
  by_cases hp : protectedVlans.contains a.vlan_id = true
  · rw [if_pos hp] at hfa
    exact absurd hfa (by simp)
  · rw [if_neg hp] at hfa
    by_cases hw : (ks.isEmpty || ks.contains a.vlan_id) = true
    · rw [if_pos hw, Option.some.injEq] at hfa
      subst hfa
      exact ⟨rfl, by simpa using hp, List.mem_map.mpr ⟨a, ha, rfl⟩⟩
    · rw [if_neg hw] at hfa
      exact absurd hfa (by simp)

/-- A non-protected `have` entity that deleted mode selects gets a delete
entry. -/
theorem mem_deletedChanges_of {hc : List Vlan} {ks : List Nat} {a : Vlan}
    (ha : a ∈ hc) (h1 : protectedVlans.contains a.vlan_id = false)
    (h2 : (ks.isEmpty || ks.contains a.vlan_id) = true) :
    ({ key := a.vlan_id, action := .delete } : Change) ∈
      deletedChanges hc ks :=
  List.mem_filterMap.mpr ⟨a, ha, by
    simp [deletedChanges, h1, h2]
    refine ⟨by simpa using h1, fun hne => ?_⟩
    rcases (by simpa using h2 : ks = [] ∨ a.vlan_id ∈ ks) with h | h
    · exact absurd h hne
    · exact h⟩

/-! ## Claims about the reconciliation engine -/

/-- Claim C1: with an empty `want`, deleted mode schedules a delete for
every non-protected key of `have` and never touches a protected key; the
result of deleted mode depends only on the keys of `want`, not on its
attribute content; and the module requires no `config` for
`state: deleted` (the `required_if` table of `main`). -/
theorem deleted_empty_want_deletes_all_nonprotected (haveCfg : List Vlan) :
    (∀ k, k ∈ keysOf haveCfg → k ∉ protectedVlans →
      ∃ c, c ∈ reconcile haveCfg [] .deleted ∧ c.key = k ∧
        c.action = .delete)
    ∧ (∀ c, c ∈ reconcile haveCfg [] .deleted → c.key ∉ protectedVlans)
    ∧ (∀ w₁ w₂ : List Vlan, keysOf w₁ = keysOf w₂ →
        reconcile haveCfg w₁ .deleted = reconcile haveCfg w₂ .deleted)
    ∧ (∀ p, p ∈ requiredIf → p.1 ≠ "deleted")
    ∧ "deleted" ∈ vlansStateChoices := by
  refine ⟨?_, ?_, ?_, ?_, by decide⟩
  · intro k hk hkp
    rcases List.mem_map.mp hk with ⟨a, ha, rfl⟩
    refine ⟨{ key := a.vlan_id, action := .delete }, ?_, rfl, rfl⟩
    simp only [reconcile]
    exact mem_sortByKey.mpr
      (mem_deletedChanges_of ha (by simp [hkp]) (by simp [keysOf]))
  · intro c hmem habs
    have hspec :=
      deletedChanges_spec (mem_sortByKey.mp (by simpa [reconcile] using hmem))
    have h1 : protectedVlans.contains c.key = true := by simp [habs]
    rw [hspec.2.1] at h1
    cases h1
  · intro w₁ w₂ hkeys
    simp only [reconcile]
    rw [hkeys]
  · intro p hp
    simp only [requiredIf, List.mem_cons, List.not_mem_nil, or_false] at hp
    rcases hp with rfl | rfl | rfl | rfl | rfl <;> decide

/-- Concrete instance of claim C1: deleting with empty `want` on a `have`
of VLANs 1, 10 and 1002 deletes exactly VLAN 10. -/
theorem deleted_empty_want_witness :
    ∃ c, c ∈ reconcile [{ vlan_id := 1 }, { vlan_id := 10 },
        { vlan_id := 1002 }] [] .deleted ∧ c.key = 10 ∧
      c.action = .delete :=
  (deleted_empty_want_deletes_all_nonprotected
      [{ vlan_id := 1 }, { vlan_id := 10 }, { vlan_id := 1002 }]).1
    10 (by decide) (by decide)

/-- Claim C2: in every reconciliation mode, a ChangeSet entry whose key is
a protected default (1, 1002-1005) is an `update` — never a `create` and
never a `delete`.  (`gathered` and `parsed` bypass the engine and produce
no ChangeSet at all.) -/
theorem protected_defaults_only_updated (haveCfg want : List Vlan)
    (mode : Mode) (c : Change) (hmem : c ∈ reconcile haveCfg want mode)
    (hprot : c.key ∈ protectedVlans) : c.action = .update := by
  have hcontains : protectedVlans.contains c.key = true := by simp [hprot]
  have handle :
      ∀ {diff : Vlan → Vlan → Deltas} {hc : List Vlan},
        c ∈ want.filterMap (diffOne diff hc) → c.action = .update := by
    intro diff hc hmem'
    rcases List.mem_filterMap.mp hmem' with ⟨w, _, hfw⟩
    rcases diffOne_spec hfw with ⟨hkey, hupd | ⟨_, hpf⟩⟩
    · exact hupd
    · rw [hkey] at hcontains
      rw [hpf] at hcontains
      cases hcontains
  cases mode with
  | merged =>
      have hc' := mem_sortByKey.mp (by simpa [reconcile] using hmem)
      exact handle (by simpa [mergeOne] using hc')
  | replaced =>
      have hc' := mem_sortByKey.mp (by simpa [reconcile] using hmem)
      exact handle (by simpa [replaceOne] using hc')
  | rendered =>
      have hc' := mem_sortByKey.mp (by simpa [reconcile] using hmem)
      exact handle (by simpa [replaceOne] using hc')
  | overridden =>
      have hc' := mem_sortByKey.mp (by simpa [reconcile] using hmem)
      rcases List.mem_append.mp hc' with hrep | hdel
      · exact handle (by simpa [replaceOne] using hrep)
      · have hspec := overriddenDeletes_spec hdel
        rw [hspec.2.2.1] at hcontains
        cases hcontains
  | deleted =>
      have hspec :=
        deletedChanges_spec (mem_sortByKey.mp (by simpa [reconcile] using hmem))
      rw [hspec.2.1] at hcontains
      cases hcontains

/-- Concrete instance of claim C2: merging a name onto protected VLAN 1
yields an update entry. -/
theorem protected_defaults_witness :
    ∃ c, c ∈ reconcile [{ vlan_id := 1 }]
        [{ vlan_id := 1, name := some "a" }] .merged ∧
      c.action = .update := by
  refine ⟨{ key := 1
            action := .update
            deltas := { name := some (none, some "a") } }, ?_, ?_⟩
  · decide
  · exact protected_defaults_only_updated [{ vlan_id := 1 }]
      [{ vlan_id := 1, name := some "a" }] .merged _ (by decide) (by decide)

/-- Claim C3: overridden mode schedules a delete for every non-protected
key of `have` absent from `want`, and on keys present in `want` it
produces exactly the entries of replaced mode. -/
theorem overridden_superset (haveCfg want : List Vlan) :
    (∀ k, k ∈ keysOf haveCfg → k ∉ keysOf want → k ∉ protectedVlans →
      ∃ c, c ∈ reconcile haveCfg want .overridden ∧ c.key = k ∧
        c.action = .delete)
    ∧ (∀ c : Change, c.key ∈ keysOf want →
        (c ∈ reconcile haveCfg want .overridden ↔
          c ∈ reconcile haveCfg want .replaced)) := by
  constructor
  · intro k hkh hkw hkp
    rcases List.mem_map.mp hkh with ⟨a, ha, rfl⟩
    refine ⟨{ key := a.vlan_id, action := .delete }, ?_, rfl, rfl⟩
    simp only [reconcile]
    exact mem_sortByKey.mpr (List.mem_append.mpr
      (Or.inr (mem_overriddenDeletes_of ha (by simp [hkw]) (by simp [hkp]))))
  · intro c hck
    simp only [reconcile]
    rw [mem_sortByKey, mem_sortByKey, List.mem_append]
    constructor
    · rintro (h | h)
      · exact h
      · have h1 : (keysOf want).contains c.key = true := by simp [hck]
        rw [(overriddenDeletes_spec h).2.1] at h1
        cases h1
    · exact Or.inl

/-- Concrete instance of claim C3: overriding `have = [10]` with an empty
`want` deletes VLAN 10. -/
theorem overridden_superset_witness :
    ∃ c, c ∈ reconcile [{ vlan_id := 10 }] [] .overridden ∧ c.key = 10 ∧
      c.action = .delete :=
  (overridden_superset [{ vlan_id := 10 }] []).1 10 (by decide) (by decide)
    (by decide)

/-- Claim C4: merged mode over disjoint key sets is additive-only — no
entry is a delete and no entry touches a key of `have`, so every `have`
entity and every attribute not named in `want` is left unchanged. -/
theorem merged_additive_only (haveCfg want : List Vlan)
    (hdisj : ∀ k, k ∈ keysOf haveCfg → k ∉ keysOf want) :
    ∀ c, c ∈ reconcile haveCfg want .merged →
      c.action ≠ .delete ∧ c.key ∉ keysOf haveCfg := by
  intro c hmem
  have hc' := mem_sortByKey.mp (by simpa [reconcile] using hmem)
  rcases List.mem_filterMap.mp (by simpa [mergeOne] using hc') with
    ⟨w, hw, hfw⟩
  rcases diffOne_spec hfw with ⟨hkey, hact⟩
  have hkw : c.key ∈ keysOf want := hkey ▸ List.mem_map.mpr ⟨w, hw, rfl⟩
  refine ⟨?_, fun hkh => hdisj _ hkh hkw⟩
  rcases hact with h | ⟨h, _⟩ <;> simp [h]

/-- Concrete instance of claim C4: merging VLAN 20 into `have = [10]`
produces only a non-delete entry away from `have`. -/
theorem merged_additive_witness :
    ({ key := 20, action := .create } : Change).action ≠ .delete ∧
      ({ key := 20, action := .create } : Change).key ∉
        keysOf [{ vlan_id := 10 }] :=
  merged_additive_only [{ vlan_id := 10 }] [{ vlan_id := 20 }]
    (fun k hk => by
      simp only [keysOf, List.map_cons, List.map_nil,
        List.mem_singleton] at hk ⊢
      omega)
    { key := 20, action := .create } (by decide)

/-- Claim C5: diffing a duplicate-free collection against itself in
replaced mode yields the empty ChangeSet, and rendering it yields no
commands. -/
theorem reconcile_self_idempotent (haveCfg : List Vlan)
    (hnd : (keysOf haveCfg).Nodup) :
    reconcile haveCfg haveCfg .replaced = [] ∧
      ∀ cfg, render cfg (reconcile haveCfg haveCfg .replaced) = [] := by
  have hmain : reconcile haveCfg haveCfg .replaced = [] := by
    simp only [reconcile]
    have hnil : haveCfg.filterMap (replaceOne haveCfg) = [] := by
      rw [List.filterMap_eq_nil_iff]
      intro a ha
      unfold replaceOne diffOne
      rw [findHave_self hnd ha]
      simp [replacedDiff_self]
    rw [hnil]
    rfl
  exact ⟨hmain, fun cfg => by rw [hmain]; rfl⟩

/-- Concrete instance of claim C5: a one-element collection diffed against
itself produces nothing. -/
theorem reconcile_self_witness :
    reconcile [{ vlan_id := 10, name := some "vlan_10" }]
        [{ vlan_id := 10, name := some "vlan_10" }] .replaced = [] ∧
      render false (reconcile [{ vlan_id := 10, name := some "vlan_10" }]
        [{ vlan_id := 10, name := some "vlan_10" }] .replaced) = [] := by
  have h := reconcile_self_idempotent
    [{ vlan_id := 10, name := some "vlan_10" }] (by decide)
  exact ⟨h.1, h.2 false⟩

/-! ## Claims about the command renderer -/

/-- The possible command strings of a `name` delta. -/
def NameCmdShape (s : String) : Prop :=
  (∃ v, s = "name " ++ v) ∨ s = "no name"

/-- The possible command strings of an admin-state delta. -/
def StateCmdShape (s : String) : Prop :=
  s = "state active" ∨ s = "state suspend" ∨ s = "no state"

/-- The possible command strings of an `mtu` delta. -/
def MtuCmdShape (s : String) : Prop :=
  (∃ n : Nat, s = "mtu " ++ toString n) ∨ s = "no mtu"

/-- The possible command strings of a `remote_span` delta. -/
def RemoteSpanCmdShape (s : String) : Prop :=
  s = "remote-span" ∨ s = "no remote-span"

/-- The possible command strings of a `shutdown` delta. -/
def ShutdownCmdShape (s : String) : Prop :=
  s = "shutdown" ∨ s = "no shutdown"

/-- The possible command strings of a `private_vlan` delta. -/
def PvlanCmdShape (s : String) : Prop :=
  (∃ t, s = "private-vlan " ++ pvlanTypeStr t) ∨
    (∃ t, s = "no private-vlan " ++ pvlanTypeStr t) ∨
    (∃ i : Nat, s = "private-vlan association " ++ toString i) ∨
    (∃ i : Nat, s = "no private-vlan association " ++ toString i)

/-- The possible command strings of a `member` delta. -/
def MemberCmdShape (s : String) : Prop :=
  (∃ m, s = memberCommand m) ∨ (∃ m, s = "no " ++ memberCommand m)

/-- `nameCmds` emits only name commands. -/
theorem nameCmds_shape (x : Option (Option String × Option String)) :
    ∀ s ∈ nameCmds x, NameCmdShape s := by
  intro s hs
  rcases x with _ | ⟨o, _ | v⟩
  · simp [nameCmds] at hs
  · simp [nameCmds] at hs
    exact Or.inr hs
  · simp [nameCmds] at hs
    exact Or.inl ⟨v, hs⟩

/-- `stateCmds` emits only admin-state commands. -/
theorem stateCmds_shape (x : Option (Option AdminState × Option AdminState)) :
    ∀ s ∈ stateCmds x, StateCmdShape s := by
  intro s hs
  rcases x with _ | ⟨o, _ | v⟩
  · simp [stateCmds] at hs
  · simp [stateCmds] at hs
    exact Or.inr (Or.inr hs)
  · cases v <;> simp [stateCmds] at hs
    · exact Or.inl hs
    · exact Or.inr (Or.inl hs)

/-- `mtuCmds` emits only mtu commands. -/
theorem mtuCmds_shape (x : Option (Option Nat × Option Nat)) :
    ∀ s ∈ mtuCmds x, MtuCmdShape s := by
  intro s hs
  rcases x with _ | ⟨o, _ | v⟩
  · simp [mtuCmds] at hs
  · simp [mtuCmds] at hs
    exact Or.inr hs
  · simp [mtuCmds] at hs
    exact Or.inl ⟨v, hs⟩

/-- `remoteSpanCmds` emits only remote-span commands. -/
theorem remoteSpanCmds_shape (x : Option (Option Bool × Option Bool)) :
    ∀ s ∈ remoteSpanCmds x, RemoteSpanCmdShape s := by
  intro s hs
  rcases x with _ | ⟨o, _ | v⟩
  · simp [remoteSpanCmds] at hs
  · simp [remoteSpanCmds] at hs
    exact Or.inr hs
  · cases v <;> simp [remoteSpanCmds] at hs
    · exact Or.inr hs
    · exact Or.inl hs

/-- `shutdownCmds` emits only shutdown-polarity commands. -/
theorem shutdownCmds_shape
    (x : Option (Option ShutdownState × Option ShutdownState)) :
    ∀ s ∈ shutdownCmds x, ShutdownCmdShape s := by
  intro s hs
  rcases x with _ | ⟨o, _ | v⟩
  · simp [shutdownCmds] at hs
  · simp [shutdownCmds] at hs
    exact Or.inr hs
  · cases v <;> simp [shutdownCmds] at hs
    · exact Or.inl hs
    · exact Or.inr hs

/-- `pvlanTypeCmds` emits only private-vlan commands. -/
theorem pvlanTypeCmds_shape (oldT newT : Option PvlanType) :
    ∀ s ∈ pvlanTypeCmds oldT newT, PvlanCmdShape s := by
  intro s hs
  unfold pvlanTypeCmds at hs
  split at hs
  · simp at hs
  · split at hs
    · simp at hs
      exact Or.inl ⟨_, hs⟩
    · simp at hs
      exact Or.inr (Or.inl ⟨_, hs⟩)
    · simp at hs

/-- `pvlanAssocCmds` emits only private-vlan association commands. -/
theorem pvlanAssocCmds_shape (oldA newA : List Nat) :
    ∀ s ∈ pvlanAssocCmds oldA newA, PvlanCmdShape s := by
  intro s hs
  rcases List.mem_append.mp hs with h | h
  · rcases List.mem_map.mp h with ⟨i, _, rfl⟩
    exact Or.inr (Or.inr (Or.inl ⟨i, rfl⟩))
  · rcases List.mem_map.mp h with ⟨i, _, rfl⟩
    exact Or.inr (Or.inr (Or.inr ⟨i, rfl⟩))

/-- `pvlanCmds` emits only private-vlan commands. -/
theorem pvlanCmds_shape
    (x : Option (Option PrivateVlan × Option PrivateVlan)) :
    ∀ s ∈ pvlanCmds x, PvlanCmdShape s := by
  intro s hs
  rcases x with _ | ⟨o, n⟩
  · simp [pvlanCmds] at hs
  · rcases List.mem_append.mp hs with h | h
    · exact pvlanTypeCmds_shape _ _ s h
    · exact pvlanAssocCmds_shape _ _ s h

/-- `memberCmds` emits only member commands. -/
theorem memberCmds_shape (x : Option (Option Member × Option Member)) :
    ∀ s ∈ memberCmds x, MemberCmdShape s := by
  intro s hs
  rcases x with _ | ⟨o, n⟩
  · simp [memberCmds] at hs
  · rcases n with _ | m
    · rcases o with _ | m'
      · simp [memberCmds] at hs
      · simp [memberCmds] at hs
        exact Or.inr ⟨m', hs⟩
    · simp [memberCmds] at hs
      exact Or.inl ⟨m, hs⟩

/-- The `rendered` EXAMPLES entry for VLAN 10 in `ios_vlans.py`. -/
def vlan10Rendered : Vlan :=
  { vlan_id := 10
    name := some "Vlan_10"
    state := some .active
    shutdown := some .disabled
    remote_span := some true }

/-- Claim C6 counterexample: on the documented `rendered` example for VLAN
10 (EXAMPLES of `ios_vlans.py`), the renderer emits `remote-span` strictly
before `no shutdown` — matching the documented output — so the claimed
shutdown-before-remote-span canonical order is false on this input. -/
theorem canonical_order_counterexample :
    render false (reconcile [] [vlan10Rendered] .rendered) =
      ["vlan 10", "name Vlan_10", "state active", "remote-span",
        "no shutdown"] ∧
      (render false (reconcile [] [vlan10Rendered] .rendered)).indexOf
          "remote-span" <
        (render false (reconcile [] [vlan10Rendered] .rendered)).indexOf
          "no shutdown" := by
  constructor <;> decide

/-- Claim C6 (amended): the sub-commands of one entity follow the fixed
canonical attribute order name → admin-state → mtu → remote-span →
shutdown polarity → private-vlan → member, as in the documented EXAMPLES
output; render being a pure function, two renderings of the same ChangeSet
are identical. -/
theorem canonical_order_amended (d : Deltas) :
    ∃ l1 l2 l3 l4 l5 l6 l7,
      subCmds d = l1 ++ l2 ++ l3 ++ l4 ++ l5 ++ l6 ++ l7 ∧
        (∀ s ∈ l1, NameCmdShape s) ∧ (∀ s ∈ l2, StateCmdShape s) ∧
        (∀ s ∈ l3, MtuCmdShape s) ∧ (∀ s ∈ l4, RemoteSpanCmdShape s) ∧
        (∀ s ∈ l5, ShutdownCmdShape s) ∧ (∀ s ∈ l6, PvlanCmdShape s) ∧
        (∀ s ∈ l7, MemberCmdShape s) :=
  ⟨nameCmds d.name, stateCmds d.state, mtuCmds d.mtu,
    remoteSpanCmds d.remote_span, shutdownCmds d.shutdown,
    pvlanCmds d.private_vlan, memberCmds d.member, rfl,
    nameCmds_shape _, stateCmds_shape _, mtuCmds_shape _,
    remoteSpanCmds_shape _, shutdownCmds_shape _, pvlanCmds_shape _,
    memberCmds_shape _⟩

/-- Concrete instance of the amended claim C6 at the VLAN-10 deltas. -/
theorem canonical_order_amended_witness :
    ∃ l1 l2 l3 l4 l5 l6 l7,
      subCmds (fullDeltas vlan10Rendered) =
          l1 ++ l2 ++ l3 ++ l4 ++ l5 ++ l6 ++ l7 ∧
        (∀ s ∈ l1, NameCmdShape s) ∧ (∀ s ∈ l2, StateCmdShape s) ∧
        (∀ s ∈ l3, MtuCmdShape s) ∧ (∀ s ∈ l4, RemoteSpanCmdShape s) ∧
        (∀ s ∈ l5, ShutdownCmdShape s) ∧ (∀ s ∈ l6, PvlanCmdShape s) ∧
        (∀ s ∈ l7, MemberCmdShape s) :=
  canonical_order_amended (fullDeltas vlan10Rendered)

/-- Claim C7: a whole-entity delete renders as exactly the single negated
top-level command — no context command, no sub-commands; concretely,
`have = [{id 20, name vlan_20}]`, `want = []`, deleted mode renders
exactly `["no vlan 20"]`. -/
theorem delete_renders_single_command :
    (∀ (cfg : Bool) (c : Change), c.action = .delete →
      renderChange cfg c = [deleteCommand cfg c.key])
    ∧ render false
        (reconcile [{ vlan_id := 20, name := some "vlan_20" }] []
          .deleted) = ["no vlan 20"] := by
  constructor
  · intro cfg c hdel
    simp [renderChange, hdel]
  · decide

/-- Concrete instance of claim C7 at a delete entry for VLAN 20. -/
theorem delete_renders_witness :
    renderChange false { key := 20, action := .delete } =
      [deleteCommand false 20] :=
  delete_renders_single_command.1 false { key := 20, action := .delete } rfl

/-! ## Claims about the module entry point and the sibling argspec -/

/-- Claim C9: on a device that is not L2, every connected state (merged,
replaced, overridden, deleted, gathered) fails with the documented message
before the pipeline runs, while rendered and parsed proceed regardless of
the device type. -/
theorem l2_guard (osType : Option String) (state : String)
    (hL2 : isL2Device osType = false)
    (hst : state ∈
      ["merged", "replaced", "overridden", "deleted", "gathered"]) :
    mainDispatch (isL2Device osType) state = .failed invalidResourceMsg ∧
      ∀ b : Bool, mainDispatch b "rendered" = .executed ∧
        mainDispatch b "parsed" = .executed := by
  constructor
  · simp only [List.mem_cons, List.not_mem_nil, or_false] at hst
    rw [hL2]
    rcases hst with rfl | rfl | rfl | rfl | rfl <;> decide
  · intro b
    cases b <;> exact ⟨by decide, by decide⟩

/-- Concrete instance of claim C9: an L3 device with state merged fails. -/
theorem l2_guard_witness :
    mainDispatch (isL2Device (some "L3")) "merged" =
        .failed invalidResourceMsg ∧
      ∀ b : Bool, mainDispatch b "rendered" = .executed ∧
        mainDispatch b "parsed" = .executed :=
  l2_guard (some "L3") "merged" (by decide) (by decide)

/-- Claim C8: the sibling EVPN-EVI schema normalizes an unspecified
`encapsulation` to the default "vxlan", and "vxlan" is the only accepted
choice for that field. -/
theorem evpn_encapsulation_default (e : Evpn_eviArgs.EvpnEvi)
    (h : e.encapsulation = none) :
    (Evpn_eviArgs.normalizeEvpnEvi e).encapsulation = some "vxlan" ∧
      ∀ v, v ∈ Evpn_eviArgs.encapsulationChoices ↔ v = "vxlan" := by
  constructor
  · simp [Evpn_eviArgs.normalizeEvpnEvi, h, Evpn_eviArgs.encapsulationDefault]
  · intro v
    simp [Evpn_eviArgs.encapsulationChoices]

/-- Concrete instance of claim C8 at an entity with no encapsulation. -/
theorem evpn_encapsulation_witness :
    (Evpn_eviArgs.normalizeEvpnEvi { evi := 101 }).encapsulation =
        some "vxlan" ∧
      ∀ v, v ∈ Evpn_eviArgs.encapsulationChoices ↔ v = "vxlan" :=
  evpn_encapsulation_default { evi := 101 } rfl

/-- Claim C10: the sibling EVPN-EVI resource accepts exactly the four
modes merged, replaced, overridden, deleted, defaulting to merged; the
offline states rendered, gathered, parsed of the VLAN resource are not
offered. -/
theorem evpn_state_choices_exact :
    Evpn_eviArgs.stateChoices =
        ["merged", "replaced", "overridden", "deleted"] ∧
      Evpn_eviArgs.stateDefault = "merged" ∧
      Evpn_eviArgs.stateDefault ∈ Evpn_eviArgs.stateChoices ∧
      "rendered" ∉ Evpn_eviArgs.stateChoices ∧
      "gathered" ∉ Evpn_eviArgs.stateChoices ∧
      "parsed" ∉ Evpn_eviArgs.stateChoices ∧
      "rendered" ∈ vlansStateChoices ∧ "gathered" ∈ vlansStateChoices ∧
      "parsed" ∈ vlansStateChoices := by
  refine ⟨rfl, rfl, ?_, ?_, ?_, ?_, ?_, ?_, ?_⟩ <;> decide

end IosVlans
